import Mathlib

/-!
Verification of the serd RDF engine's natural-language specification.

The repository ships only the Python test suite for its bindings; the native
engine (Node/Statement/Model/Env/Reader) is not among the sources.  Following
the specification, the data model and operations are reconstructed here as
executable Lean definitions, and the specified properties are proved about
them.  Every definition whose documentation starts with "Modelled from the
spec" stands for engine code that is missing from the sources and follows the
specification's wording for it.
-/

namespace Serd

/-- XSD datatype URI attached by the boolean convenience constructor. -/
def xsd_boolean : String := "http://www.w3.org/2001/XMLSchema#boolean"

/-- XSD datatype URI attached by the integer convenience constructor. -/
def xsd_integer : String := "http://www.w3.org/2001/XMLSchema#integer"

/-- XSD datatype URI attached by the decimal convenience constructor. -/
def xsd_decimal : String := "http://www.w3.org/2001/XMLSchema#decimal"

/-- XSD datatype URI attached by the double convenience constructor. -/
def xsd_double : String := "http://www.w3.org/2001/XMLSchema#double"

/-- XSD datatype URI attached by the float convenience constructor. -/
def xsd_float : String := "http://www.w3.org/2001/XMLSchema#float"

/-- XSD datatype URI attached by the base64 convenience constructor. -/
def xsd_base64Binary : String := "http://www.w3.org/2001/XMLSchema#base64Binary"

/-- Modelled from the spec: the Node variant type of the missing native
engine.  A Node is an immutable tagged value: a URI reference stored as its
exact lexical text, a CURIE stored as its combined text of the form
prefix:name, a blank node identifier, a literal whose value is the lexical
form with at most one of datatype or language set, or a variable used only in
pattern contexts. -/
inductive Node where
  | uri (text : String)
  | curie (text : String)
  | blank (id : String)
  | literal (value : String) (datatype : Option String) (language : Option String)
  | var (name : String)
deriving DecidableEq

/-- Modelled from the spec: the plain-literal constructor without language
(Python serd.string). -/
def string (value : String) : Node := .literal value none none

/-- Modelled from the spec: the plain-literal constructor with a language tag
(Python serd.plain_literal). -/
def plain_literal (value : String) (language : String) : Node :=
  .literal value none (some language)

/-- Modelled from the spec: the typed-literal constructor attaching a datatype
URI (Python serd.typed_literal). -/
def typed_literal (value : String) (datatype : String) : Node :=
  .literal value (some datatype) none

/-- Modelled from the spec: the URI node constructor (Python serd.uri). -/
def uri (text : String) : Node := .uri text

/-- Modelled from the spec: the CURIE node constructor (Python serd.curie);
per the data model its text has the form prefix:name. -/
def curie (text : String) : Node := .curie text

/-- Modelled from the spec: the blank node constructor (Python serd.blank). -/
def blank (id : String) : Node := .blank id

/-- Modelled from the spec: the variable node constructor (Python
serd.variable); variables have no concrete-syntax form. -/
def var (name : String) : Node := .var name

/-- Modelled from the spec: the boolean convenience constructor computes the
canonical lexical form and attaches the XSD boolean datatype. -/
def boolean (b : Bool) : Node :=
  typed_literal (if b then "true" else "false") xsd_boolean

/-- Lower bound of the signed 64-bit integer domain. -/
def int64Min : Int := -(2 ^ 63)

/-- Upper bound of the signed 64-bit integer domain. -/
def int64Max : Int := 2 ^ 63 - 1

/-- Modelled from the spec: the integer convenience constructor; it fails
with a range error (none) if the input exceeds the representable signed
64-bit integer domain, and otherwise attaches the canonical decimal lexical
form and the XSD integer datatype. -/
def integer (i : Int) : Option Node :=
  if int64Min ≤ i ∧ i ≤ int64Max then some (typed_literal (toString i) xsd_integer)
  else none

/-- Modelled from the spec: the decimal convenience constructor; the decimal
canonical lexical formatting is an external pure function, so the constructor
is modelled over the already-formatted lexical form, with an optional
datatype override defaulting to XSD decimal. -/
def decimal (lexical : String) (datatype : Option String) : Node :=
  typed_literal lexical (datatype.getD xsd_decimal)

/-- Modelled from the spec: the double convenience constructor over the
externally computed canonical exponential lexical form. -/
def double (lexical : String) : Node := typed_literal lexical xsd_double

/-- Modelled from the spec: the float convenience constructor over the
externally computed canonical exponential lexical form. -/
def float (lexical : String) : Node := typed_literal lexical xsd_float

/-- Modelled from the spec: the base64 convenience constructor; base64
encoding of the binary payload is an external pure function, so the
constructor is modelled over the already-encoded text, with an optional
datatype override defaulting to XSD base64Binary. -/
def base64 (encoded : String) (datatype : Option String) : Node :=
  typed_literal encoded (datatype.getD xsd_base64Binary)

/-- Modelled from the spec: the file URI constructor, which joins the
file scheme, the optional hostname and the path. -/
def file_uri (path : String) (hostname : String) : Node :=
  .uri ("file://" ++ hostname ++ path)

/-- Escaping used by the textual node encoding: a backslash is put before
every quote and backslash of the literal value. -/
def escapeChars : List Char → List Char
  | [] => []
  | c :: cs =>
    if c = '"' ∨ c = '\\' then '\\' :: c :: escapeChars cs
    else c :: escapeChars cs

/-- Scanner for a quoted literal body: reads up to the closing unescaped
quote, unescaping backslash pairs, and returns the value together with the
input remaining after the closing quote. -/
def scanLit : List Char → Option (List Char × List Char)
  | [] => none
  | c :: rest =>
    if c = '"' then some ([], rest)
    else if c = '\\' then
      match rest with
      | [] => none
      | d :: rest2 => (scanLit rest2).map fun p => (d :: p.1, p.2)
    else (scanLit rest).map fun p => (c :: p.1, p.2)

/-- Modelled from the spec: the textual Syntax encoding of a single node used
by the Writer side of the missing engine.  URIs are written in angle
brackets, blank nodes with the underscore-colon label prefix, CURIEs as
their combined text, literals quoted with escaping followed by an optional
language tag or datatype annotation, and variables with a question mark. -/
def toSyntaxChars : Node → List Char
  | .uri t => '<' :: (t.data ++ ['>'])
  | .curie t => t.data
  | .blank i => '_' :: ':' :: i.data
  | .literal v none none => '"' :: (escapeChars v.data ++ '"' :: [])
  | .literal v none (some l) => '"' :: (escapeChars v.data ++ '"' :: '@' :: l.data)
  | .literal v (some d) _ =>
    '"' :: (escapeChars v.data ++ '"' :: '^' :: '^' :: '<' :: (d.data ++ ['>']))
  | .var nm => '?' :: nm.data

/-- Modelled from the spec: the Reader-side parse of a single node in the
textual Syntax encoding, the inverse of the node encoding written by the
Writer. -/
def fromSyntaxChars : List Char → Option Node
  | [] => none
  | c :: rest =>
    if c = '<' then
      if rest.getLast? = some '>' then some (.uri ⟨rest.dropLast⟩) else none
    else if c = '"' then
      match scanLit rest with
      | none => none
      | some (v, after) =>
        match after with
        | [] => some (.literal ⟨v⟩ none none)
        | '@' :: lang => some (.literal ⟨v⟩ none (some ⟨lang⟩))
        | '^' :: '^' :: '<' :: dtl =>
          if dtl.getLast? = some '>' then
            some (.literal ⟨v⟩ (some ⟨dtl.dropLast⟩) none)
          else none
        | _ => none
    else if c = '_' then
      match rest with
      | ':' :: ident => some (.blank ⟨ident⟩)
      | _ => none
    else if c = '?' then some (.var ⟨rest⟩)
    else if c.isAlpha || c = ':' then some (.curie ⟨c :: rest⟩)
    else none

/-- Serialize a node to its textual syntax form. -/
def Node.toSyntaxText (n : Node) : String := ⟨toSyntaxChars n⟩

/-- Parse a node back from its textual syntax form. -/
def Node.fromSyntaxText (s : String) : Option Node := fromSyntaxChars s.data

/-- A CURIE text of the spec's prefix:name form starts with a prefix letter
or directly with the colon. -/
def curieTextOk (t : String) : Bool :=
  match t.data with
  | [] => false
  | c :: _ => c.isAlpha || c = ':'

/-- The set of nodes produced by the typed constructors: this is the union of
the images of uri, blank, curie (on spec-form CURIE texts), string,
plain_literal, typed_literal, decimal, double, float, integer, boolean,
base64 and file_uri. -/
def ConstructorBuilt (n : Node) : Prop :=
  (∃ t, n = uri t) ∨ (∃ i, n = blank i) ∨
  (∃ t, curieTextOk t = true ∧ n = curie t) ∨
  (∃ v, n = string v) ∨ (∃ v l, n = plain_literal v l) ∨
  (∃ v d, n = typed_literal v d) ∨ (∃ x d, n = decimal x d) ∨
  (∃ x, n = double x) ∨ (∃ x, n = float x) ∨
  (∃ i m, integer i = some m ∧ n = m) ∨ (∃ b, n = boolean b) ∨
  (∃ x d, n = base64 x d) ∨ (∃ p h, n = file_uri p h)

theorem strMk_data (s : String) : (⟨s.data⟩ : String) = s := rfl

theorem scanLit_escape (v rest : List Char) :
    scanLit (escapeChars v ++ '"' :: rest) = some (v, rest) := by
  induction v with
  | nil => simp [escapeChars, scanLit.eq_def]
  | cons c cs ih =>
    by_cases h : c = '"' ∨ c = '\\'
    · simp only [escapeChars, if_pos h, List.cons_append]
      rw [scanLit.eq_def]
      simp [ih]
    · push_neg at h
      simp only [escapeChars, if_neg (by tauto : ¬(c = '"' ∨ c = '\\')), List.cons_append]
      rw [scanLit.eq_def]
      simp [h.1, h.2, ih]

theorem from_to_uri (t : String) :
    fromSyntaxChars (toSyntaxChars (Node.uri t)) = some (Node.uri t) := by
  simp [toSyntaxChars, fromSyntaxChars, List.getLast?_concat, strMk_data]

theorem from_to_blank (i : String) :
    fromSyntaxChars (toSyntaxChars (Node.blank i)) = some (Node.blank i) := by
  simp [toSyntaxChars, fromSyntaxChars, strMk_data]

theorem from_to_plain (v : String) :
    fromSyntaxChars (toSyntaxChars (Node.literal v none none)) =
      some (Node.literal v none none) := by
  simp [toSyntaxChars, fromSyntaxChars, scanLit_escape, strMk_data]

theorem from_to_lang (v l : String) :
    fromSyntaxChars (toSyntaxChars (Node.literal v none (some l))) =
      some (Node.literal v none (some l)) := by
  simp [toSyntaxChars, fromSyntaxChars, scanLit_escape, strMk_data]

theorem from_to_typed (v d : String) :
    fromSyntaxChars (toSyntaxChars (Node.literal v (some d) none)) =
      some (Node.literal v (some d) none) := by
  simp [toSyntaxChars, fromSyntaxChars, scanLit_escape, List.getLast?_concat, strMk_data]

theorem from_to_curie (t : String) (h : curieTextOk t = true) :
    fromSyntaxChars (toSyntaxChars (Node.curie t)) = some (Node.curie t) := by
  obtain ⟨cs⟩ := t
  match cs, h with
  | c :: rest, h =>
    have h' : c.isAlpha = true ∨ c = ':' := by
      simpa [curieTextOk] using h
    have h1 : c ≠ '<' := by rintro rfl; rcases h' with ha | ha <;> simp_all
    have h2 : c ≠ '"' := by rintro rfl; rcases h' with ha | ha <;> simp_all
    have h3 : c ≠ '_' := by rintro rfl; rcases h' with ha | ha <;> simp_all
    have h4 : c ≠ '?' := by rintro rfl; rcases h' with ha | ha <;> simp_all
    have h5 : (c.isAlpha || c = ':') = true := by
      rcases h' with ha | ha <;> simp [ha]
    simp [toSyntaxChars, fromSyntaxChars, h1, h2, h3, h4, h5]

/-- C1: for every Node built by a typed constructor (uri, blank, curie,
string, plain_literal, typed_literal, decimal, double, float, integer,
boolean, base64, file_uri), serializing the node to its textual syntax form
and re-parsing that text yields an equal Node; Variable nodes are excluded
from this round-trip law. -/
theorem c1_node_syntax_round_trip (n : Node) (h : ConstructorBuilt n) :
    Node.fromSyntaxText (Node.toSyntaxText n) = some n := by
  show fromSyntaxChars (toSyntaxChars n) = some n
  rcases h with ⟨t, rfl⟩ | ⟨i, rfl⟩ | ⟨t, hok, rfl⟩ | ⟨v, rfl⟩ | ⟨v, l, rfl⟩ |
    ⟨v, d, rfl⟩ | ⟨x, d, rfl⟩ | ⟨x, rfl⟩ | ⟨x, rfl⟩ | ⟨i, m, hm, rfl⟩ |
    ⟨b, rfl⟩ | ⟨x, d, rfl⟩ | ⟨p, hst, rfl⟩
  · exact from_to_uri t
  · exact from_to_blank i
  · exact from_to_curie t hok
  · exact from_to_plain v
  · exact from_to_lang v l
  · exact from_to_typed v d
  · exact from_to_typed x (d.getD xsd_decimal)
  · exact from_to_typed x xsd_double
  · exact from_to_typed x xsd_float
  · unfold integer at hm
    split at hm
    · cases hm; exact from_to_typed (toString i) xsd_integer
    · cases hm
  · exact from_to_typed (if b then "true" else "false") xsd_boolean
  · exact from_to_typed x (d.getD xsd_base64Binary)
  · exact from_to_uri ("file://" ++ hst ++ p)

/-- C1 witness: the round-trip law applied to a concrete language-tagged
literal built by plain_literal. -/
theorem c1_witness :
    ConstructorBuilt (plain_literal "hallo" "de") ∧
      Node.fromSyntaxText (Node.toSyntaxText (plain_literal "hallo" "de")) =
        some (plain_literal "hallo" "de") := by
  have hb : ConstructorBuilt (plain_literal "hallo" "de") :=
    Or.inr (Or.inr (Or.inr (Or.inr (Or.inl ⟨"hallo", "de", rfl⟩))))
  exact ⟨hb, c1_node_syntax_round_trip _ hb⟩

/-- Modelled from the spec: the Cursor source-position tag (name, line,
column) attached to statements for diagnostics; equality is structural. -/
structure Cursor where
  name : String
  line : Nat
  column : Nat
deriving DecidableEq

/-- Modelled from the spec: a Statement is an ordered tuple of four Node
slots (subject, predicate, object, optional graph) plus an optional Cursor
that is excluded from equality. -/
structure Statement where
  subject : Node
  predicate : Node
  object : Node
  graph : Option Node
  cursor : Option Cursor
deriving DecidableEq

/-- Modelled from the spec: construction requires the subject to be a URI or
blank node, the predicate a URI, and the object a URI, blank node or
literal. -/
def Statement.valid (st : Statement) : Bool :=
  (match st.subject with
   | .uri _ => true
   | .blank _ => true
   | _ => false) &&
  (match st.predicate with
   | .uri _ => true
   | _ => false) &&
  (match st.object with
   | .uri _ => true
   | .blank _ => true
   | .literal _ _ _ => true
   | _ => false)

/-- Modelled from the spec: indexed field access by position 0-3 (subject,
predicate, object, graph), failing with an out-of-range error for indices
outside this set (including negative ones). -/
def Statement.getItem (st : Statement) (i : Int) : Except String (Option Node) :=
  if i = 0 then .ok (some st.subject)
  else if i = 1 then .ok (some st.predicate)
  else if i = 2 then .ok (some st.object)
  else if i = 3 then .ok st.graph
  else .error "Field index out of range"

/-- The four node slots of a statement, its identity for equality purposes
(the cursor is excluded). -/
def Statement.fields (st : Statement) : Node × Node × Node × Option Node :=
  (st.subject, st.predicate, st.object, st.graph)

/-- Self-delimiting numeric encoding of a string: its length followed by its
character codes. -/
def encodeStr (s : String) : List Nat := s.length :: s.data.map Char.toNat

/-- Self-delimiting numeric encoding of an optional string. -/
def encodeOptStr : Option String → List Nat
  | none => [0]
  | some s => 1 :: encodeStr s

/-- Modelled from the spec: the total order key of a node, with the variant
tag as the primary sort key, then the lexical value, then the datatype, then
the language; this ordering underlies all Model indices. -/
def nodeKey : Node → List Nat
  | .uri t => 0 :: encodeStr t
  | .curie t => 1 :: encodeStr t
  | .blank i => 2 :: encodeStr i
  | .literal v d l => 3 :: (encodeStr v ++ (encodeOptStr d ++ encodeOptStr l))
  | .var nm => 4 :: encodeStr nm

/-- Order key of the optional graph slot (absent sorts before any value). -/
def graphKey : Option Node → List Nat
  | none => [0]
  | some n => 1 :: nodeKey n

/-- Order key of the four node slots of a field tuple, subject-major. -/
def fieldsKey : Node × Node × Node × Option Node → List Nat
  | (s, p, o, g) => nodeKey s ++ (nodeKey p ++ (nodeKey o ++ graphKey g))

/-- Modelled from the spec: the subject-major SPO ordering key of a
statement used by the Model's index; the cursor does not participate. -/
def stKey (st : Statement) : List Nat := fieldsKey st.fields

/-- Lexicographic strict order on numeric keys. -/
def lexLtb : List Nat → List Nat → Bool
  | [], [] => false
  | [], _ :: _ => true
  | _ :: _, [] => false
  | x :: xs, y :: ys => if x < y then true else if x = y then lexLtb xs ys else false

theorem lexLtb_irrefl (l : List Nat) : lexLtb l l = false := by
  induction l with
  | nil => rfl
  | cons x xs ih => simp [lexLtb, ih]

theorem lexLtb_trans : ∀ {a b c : List Nat},
    lexLtb a b = true → lexLtb b c = true → lexLtb a c = true
  | [], [], _, h, _ => by cases h
  | [], _ :: _, [], _, h => by cases h
  | [], _ :: _, _ :: _, _, _ => rfl
  | _ :: _, [], _, h, _ => by cases h
  | _ :: _, _ :: _, [], _, h => by cases h
  | x :: xs, y :: ys, z :: zs, h1, h2 => by
    simp only [lexLtb] at h1 h2 ⊢
    have h1' : x < y ∨ (x = y ∧ lexLtb xs ys = true) := by
      by_cases h : x < y
      · exact Or.inl h
      · by_cases he : x = y
        · exact Or.inr ⟨he, by simpa [h, he] using h1⟩
        · simp [h, he] at h1
    have h2' : y < z ∨ (y = z ∧ lexLtb ys zs = true) := by
      by_cases h : y < z
      · exact Or.inl h
      · by_cases he : y = z
        · exact Or.inr ⟨he, by simpa [h, he] using h2⟩
        · simp [h, he] at h2
    rcases h1' with h1' | ⟨rfl, h1'⟩
    · rcases h2' with h2' | ⟨rfl, h2'⟩
      · simp [Nat.lt_trans h1' h2']
      · simp [h1']
    · rcases h2' with h2' | ⟨rfl, h2'⟩
      · simp [h2']
      · simp [lexLtb_trans h1' h2']

theorem lexLtb_connect : ∀ (a b : List Nat),
    a = b ∨ lexLtb a b = true ∨ lexLtb b a = true
  | [], [] => Or.inl rfl
  | [], _ :: _ => Or.inr (Or.inl rfl)
  | _ :: _, [] => Or.inr (Or.inr rfl)
  | x :: xs, y :: ys => by
    rcases Nat.lt_trichotomy x y with h | h | h
    · exact Or.inr (Or.inl (by simp [lexLtb, h]))
    · subst h
      rcases lexLtb_connect xs ys with h' | h' | h'
      · exact Or.inl (by rw [h'])
      · exact Or.inr (Or.inl (by simp [lexLtb, h']))
      · exact Or.inr (Or.inr (by simp [lexLtb, h']))
    · exact Or.inr (Or.inr (by simp [lexLtb, h]))

theorem lexLtb_asymm {a b : List Nat} (h1 : lexLtb a b = true)
    (h2 : lexLtb b a = true) : False := by
  have := lexLtb_trans h1 h2
  rw [lexLtb_irrefl] at this
  cases this

theorem charToNat_injective : Function.Injective Char.toNat := fun _ _ h =>
  Char.ext (UInt32.toNat.inj h)

theorem encodeStr_append_inj {a b : String} {x y : List Nat}
    (h : encodeStr a ++ x = encodeStr b ++ y) : a = b ∧ x = y := by
  simp only [encodeStr, List.cons_append, List.cons.injEq] at h
  obtain ⟨hlen, htail⟩ := h
  have hdlen : a.data.length = b.data.length := hlen
  have hmaplen : (a.data.map Char.toNat).length = (b.data.map Char.toNat).length := by
    simpa using hdlen
  obtain ⟨hmap, hxy⟩ := List.append_inj htail hmaplen
  have hdata : a.data = b.data := List.map_injective_iff.mpr charToNat_injective hmap
  exact ⟨by cases a; cases b; exact congrArg String.mk hdata, hxy⟩

theorem encodeOptStr_append_inj {a b : Option String} {x y : List Nat}
    (h : encodeOptStr a ++ x = encodeOptStr b ++ y) : a = b ∧ x = y := by
  cases a <;> cases b <;> simp only [encodeOptStr, List.cons_append,
    List.cons.injEq, List.nil_append] at h
  · exact ⟨rfl, h.2⟩
  · cases h.1
  · cases h.1
  · obtain ⟨he, hxy⟩ := encodeStr_append_inj h.2
    exact ⟨congrArg some he, hxy⟩

theorem nodeKey_append_inj : ∀ {a b : Node} {x y : List Nat},
    nodeKey a ++ x = nodeKey b ++ y → a = b ∧ x = y := by
  intro a b x y h
  cases a <;> cases b <;> simp only [nodeKey, List.cons_append, List.cons.injEq,
    List.append_assoc] at h <;> try (exact absurd h.1 (by decide))
  · obtain ⟨he, hxy⟩ := encodeStr_append_inj h.2
    exact ⟨congrArg Node.uri he, hxy⟩
  · obtain ⟨he, hxy⟩ := encodeStr_append_inj h.2
    exact ⟨congrArg Node.curie he, hxy⟩
  · obtain ⟨he, hxy⟩ := encodeStr_append_inj h.2
    exact ⟨congrArg Node.blank he, hxy⟩
  · obtain ⟨hv, h2⟩ := encodeStr_append_inj h.2
    obtain ⟨hd, h3⟩ := encodeOptStr_append_inj h2
    obtain ⟨hl, hxy⟩ := encodeOptStr_append_inj h3
    subst hv; subst hd; subst hl
    exact ⟨rfl, hxy⟩
  · obtain ⟨he, hxy⟩ := encodeStr_append_inj h.2
    exact ⟨congrArg Node.var he, hxy⟩

theorem nodeKey_inj {a b : Node} (h : nodeKey a = nodeKey b) : a = b := by
  have h' : nodeKey a ++ ([] : List Nat) = nodeKey b ++ [] := by simp [h]
  exact (nodeKey_append_inj h').1

theorem graphKey_inj {a b : Option Node} (h : graphKey a = graphKey b) : a = b := by
  cases a <;> cases b <;> simp only [graphKey, List.cons.injEq] at h
  · rfl
  · cases h.1
  · cases h.1
  · exact congrArg some (nodeKey_inj h.2)

theorem fieldsKey_inj {a b : Node × Node × Node × Option Node}
    (h : fieldsKey a = fieldsKey b) : a = b := by
  obtain ⟨s1, p1, o1, g1⟩ := a
  obtain ⟨s2, p2, o2, g2⟩ := b
  simp only [fieldsKey] at h
  obtain ⟨hs, h2⟩ := nodeKey_append_inj h
  obtain ⟨hp, h3⟩ := nodeKey_append_inj h2
  obtain ⟨ho, h4⟩ := nodeKey_append_inj h3
  exact by simp [hs, hp, ho, graphKey_inj h4]

/-- Modelled from the spec: the Model is the indexed store owning a set of
unique Statements; it is represented by its index flag configuration and its
statement sequence kept in the subject-major index order with set semantics
(no two stored statements share the same four node slots). -/
structure Model where
  flags : Nat
  stmts : List Statement

/-- Index flag enabling the subject-predicate-object ordering. -/
def INDEX_SPO : Nat := 1

/-- Index flag enabling the orthogonal graph index. -/
def INDEX_GRAPHS : Nat := 64

/-- A freshly constructed model with the given index flags and no
statements. -/
def emptyModel (flags : Nat) : Model := ⟨flags, []⟩

/-- Number of statements in the model. -/
def Model.size (m : Model) : Nat := m.stmts.length

/-- Whether the model holds no statements. -/
def Model.isEmpty (m : Model) : Bool := m.stmts.isEmpty

/-- Insertion into the ordered statement sequence: a statement whose four
node slots already occur is a no-op (set semantics); otherwise the statement
is placed at its index position. -/
def insertSorted (st : Statement) : List Statement → List Statement
  | [] => [st]
  | x :: xs =>
    if stKey st = stKey x then x :: xs
    else if lexLtb (stKey st) (stKey x) then st :: x :: xs
    else x :: insertSorted st xs

/-- Modelled from the spec: Model.insert adds a statement to the statement
set and all configured indices; inserting a duplicate is a no-op and size
increases by 0 or 1. -/
def Model.insert (m : Model) (st : Statement) : Model :=
  ⟨m.flags, insertSorted st m.stmts⟩

/-- Modelled from the spec: Model.erase removes the statement (identified by
its four node slots) from the statement set and all indices. -/
def Model.erase (m : Model) (st : Statement) : Model :=
  ⟨m.flags, m.stmts.filter fun x => !(stKey x == stKey st)⟩

/-- Whether a concrete slot pattern entry matches a node (absent entry is a
wildcard). -/
def optMatch (pat : Option Node) (n : Node) : Bool :=
  match pat with
  | none => true
  | some x => x == n

/-- Whether a graph pattern entry matches the optional graph slot; an absent
entry is a wildcard matching both an absent graph and any actual value. -/
def graphMatch (pat : Option Node) (g : Option Node) : Bool :=
  match pat with
  | none => true
  | some x => g == some x

/-- Modelled from the spec: Statement.matches is true iff every non-wildcard
argument equals the corresponding slot. -/
def Statement.matches (st : Statement) (s p o g : Option Node) : Bool :=
  optMatch s st.subject && optMatch p st.predicate &&
    optMatch o st.object && graphMatch g st.graph

/-- Number of wildcard (absent) entries in a quad pattern. -/
def wildcards (s p o g : Option Node) : Nat :=
  (if s.isNone then 1 else 0) + (if p.isNone then 1 else 0) +
    (if o.isNone then 1 else 0) + (if g.isNone then 1 else 0)

/-- Modelled from the spec: Model.get requires exactly one wildcard among
subject/predicate/object/graph and returns the node that, substituted into
the wildcard slot of the first matching statement, yields a match; zero
matches give none (not an error), while a pattern with a wildcard count
other than one is a logic error. -/
def Model.get (m : Model) (s p o g : Option Node) : Except String (Option Node) :=
  if wildcards s p o g ≠ 1 then .error "Pattern must have exactly one wildcard"
  else
    match m.stmts.find? (fun st => st.matches s p o g) with
    | none => .ok none
    | some st =>
      .ok (if s.isNone then some st.subject
           else if p.isNone then some st.predicate
           else if o.isNone then some st.object
           else st.graph)

/-- C3: in a Model indexed with INDEX_SPO and INDEX_GRAPHS containing
exactly the quad (s,p,o,g), get with exactly one wildcard among the four
positions returns the node in that position, and when zero statements match
a one-wildcard pattern, get returns none rather than an error. -/
theorem c3_model_get_single_wildcard :
    (∀ s p o g : Node,
      ((emptyModel (INDEX_SPO + INDEX_GRAPHS)).insert
          ⟨s, p, o, some g, none⟩).get none (some p) (some o) (some g) =
        .ok (some s) ∧
      ((emptyModel (INDEX_SPO + INDEX_GRAPHS)).insert
          ⟨s, p, o, some g, none⟩).get (some s) none (some o) (some g) =
        .ok (some p) ∧
      ((emptyModel (INDEX_SPO + INDEX_GRAPHS)).insert
          ⟨s, p, o, some g, none⟩).get (some s) (some p) none (some g) =
        .ok (some o) ∧
      ((emptyModel (INDEX_SPO + INDEX_GRAPHS)).insert
          ⟨s, p, o, some g, none⟩).get (some s) (some p) (some o) none =
        .ok (some g)) ∧
    (∀ (m : Model) (s p o g : Option Node), wildcards s p o g = 1 →
      (∀ st ∈ m.stmts, st.matches s p o g = false) →
      m.get s p o g = .ok none) := by
  constructor
  · intro s p o g
    refine ⟨?_, ?_, ?_, ?_⟩ <;>
      simp [Model.get, Model.insert, emptyModel, insertSorted, wildcards,
        Statement.matches, optMatch, graphMatch]
  · intro m s p o g h1 h2
    have hnone : m.stmts.find? (fun st => st.matches s p o g) = none :=
      List.find?_eq_none.mpr (by intro x hx; simp [h2 x hx])
    simp [Model.get, h1, hnone]

/-- C3 witness: the four one-wildcard lookups on a concrete singleton model,
and a no-match one-wildcard lookup returning none. -/
theorem c3_witness :
    ((emptyModel (INDEX_SPO + INDEX_GRAPHS)).insert
        ⟨uri "http://example.org/s", uri "http://example.org/p",
          uri "http://example.org/o", some (uri "http://example.org/g"),
          none⟩).get none (some (uri "http://example.org/p"))
        (some (uri "http://example.org/o"))
        (some (uri "http://example.org/g")) =
      .ok (some (uri "http://example.org/s")) ∧
    ((emptyModel (INDEX_SPO + INDEX_GRAPHS)).insert
        ⟨uri "http://example.org/s", uri "http://example.org/p",
          uri "http://example.org/o", some (uri "http://example.org/g"),
          none⟩).get none (some (uri "http://example.org/p"))
        (some (uri "http://example.org/o"))
        (some (uri "http://example.org/x")) =
      .ok none := by
  constructor
  · exact (c3_model_get_single_wildcard.1 (uri "http://example.org/s")
      (uri "http://example.org/p") (uri "http://example.org/o")
      (uri "http://example.org/g")).1
  · exact c3_model_get_single_wildcard.2 _ none
      (some (uri "http://example.org/p")) (some (uri "http://example.org/o"))
      (some (uri "http://example.org/x")) (by decide) (by decide)

theorem insertSorted_idem (st : Statement) (l : List Statement) :
    insertSorted st (insertSorted st l) = insertSorted st l := by
  induction l with
  | nil => simp [insertSorted]
  | cons x xs ih =>
    by_cases he : stKey st = stKey x
    · simp [insertSorted, he]
    · by_cases hlt : lexLtb (stKey st) (stKey x) = true
      · simp [insertSorted, he, hlt]
      · simp [insertSorted, he, hlt, ih]

/-- C4: for every Model and valid Statement, inserting the statement twice
leaves the size equal to inserting it once (duplicate insert is a no-op),
and erasing the statement after a single insert into a fresh model leaves
size zero and empty true. -/
theorem c4_insert_idempotent_erase (m : Model) (st : Statement)
    (flags : Nat) (hv : st.valid = true) :
    ((m.insert st).insert st).size = (m.insert st).size ∧
    (((emptyModel flags).insert st).erase st).size = 0 ∧
    (((emptyModel flags).insert st).erase st).isEmpty = true := by
  refine ⟨?_, ?_, ?_⟩
  · simp [Model.insert, Model.size, insertSorted_idem]
  · simp [Model.insert, Model.erase, emptyModel, insertSorted, Model.size]
  · simp [Model.insert, Model.erase, emptyModel, insertSorted, Model.isEmpty]

/-- C4 witness: duplicate insert and insert-then-erase on a concrete model
and statement. -/
theorem c4_witness :
    ((((emptyModel INDEX_SPO).insert
          ⟨uri "http://example.org/s", uri "http://example.org/p",
            uri "http://example.org/o", none, none⟩).insert
        ⟨uri "http://example.org/s", uri "http://example.org/p",
          uri "http://example.org/o", none, none⟩).size =
      ((emptyModel INDEX_SPO).insert
        ⟨uri "http://example.org/s", uri "http://example.org/p",
          uri "http://example.org/o", none, none⟩).size) ∧
    (((emptyModel INDEX_SPO).insert
        ⟨uri "http://example.org/s", uri "http://example.org/p",
          uri "http://example.org/o", none, none⟩).erase
      ⟨uri "http://example.org/s", uri "http://example.org/p",
        uri "http://example.org/o", none, none⟩).size = 0 :=
  ⟨(c4_insert_idempotent_erase (emptyModel INDEX_SPO)
      ⟨uri "http://example.org/s", uri "http://example.org/p",
        uri "http://example.org/o", none, none⟩ INDEX_SPO (by decide)).1,
   (c4_insert_idempotent_erase (emptyModel INDEX_SPO)
      ⟨uri "http://example.org/s", uri "http://example.org/p",
        uri "http://example.org/o", none, none⟩ INDEX_SPO (by decide)).2.1⟩

/-- C5: indexed field access at positions 0, 1, 2, 3 returns the
statement's subject, predicate, object and graph respectively, and access at
any index outside these four (negative indices included) fails with an
out-of-range error. -/
theorem c5_statement_field_access (st : Statement) :
    st.getItem 0 = .ok (some st.subject) ∧
    st.getItem 1 = .ok (some st.predicate) ∧
    st.getItem 2 = .ok (some st.object) ∧
    st.getItem 3 = .ok st.graph ∧
    ∀ i : Int, (i < 0 ∨ 3 < i) →
      st.getItem i = .error "Field index out of range" := by
  refine ⟨by simp [Statement.getItem], by simp [Statement.getItem],
    by simp [Statement.getItem], by simp [Statement.getItem], ?_⟩
  intro i hi
  have h0 : i ≠ 0 := by omega
  have h1 : i ≠ 1 := by omega
  have h2 : i ≠ 2 := by omega
  have h3 : i ≠ 3 := by omega
  simp [Statement.getItem, h0, h1, h2, h3]

/-- C5 witness: out-of-range accesses at -1 and 4 on a concrete statement
with all four slots and a cursor. -/
theorem c5_witness :
    (Statement.mk (uri "http://example.org/s") (uri "http://example.org/p")
        (uri "http://example.org/o") (some (uri "http://example.org/g"))
        (some ⟨"foo.ttl", 1, 0⟩)).getItem (-1) =
      .error "Field index out of range" ∧
    (Statement.mk (uri "http://example.org/s") (uri "http://example.org/p")
        (uri "http://example.org/o") (some (uri "http://example.org/g"))
        (some ⟨"foo.ttl", 1, 0⟩)).getItem 4 =
      .error "Field index out of range" :=
  ⟨(c5_statement_field_access _).2.2.2.2 (-1) (Or.inl (by decide)),
   (c5_statement_field_access _).2.2.2.2 4 (Or.inr (by decide))⟩

/-- C6: the integer constructor accepts every integer in the signed 64-bit
domain and fails with a range error for any integer outside it; in
particular -9223372036854775809 and 9223372036854775808 are rejected while
42 yields the literal "42" with datatype xsd:integer. -/
theorem c6_integer_range :
    (∀ i : Int, int64Min ≤ i → i ≤ int64Max →
      integer i = some (typed_literal (toString i) xsd_integer)) ∧
    (∀ i : Int, i < int64Min ∨ int64Max < i → integer i = none) ∧
    integer (-9223372036854775809) = none ∧
    integer 9223372036854775808 = none ∧
    integer 42 = some (typed_literal "42" xsd_integer) := by
  refine ⟨?_, ?_, ?_, ?_, ?_⟩
  · intro i h1 h2
    simp [integer, h1, h2]
  · intro i h
    have : ¬(int64Min ≤ i ∧ i ≤ int64Max) := by
      rcases h with h | h
      · exact fun hc => absurd hc.1 (by omega)
      · exact fun hc => absurd hc.2 (by omega)
    simp [integer, this]
  · decide
  · decide
  · decide

/-- C6 witness: the in-range case at 42 and the out-of-range case at
2 to the 63rd, each discharged at a concrete input. -/
theorem c6_witness :
    integer 42 = some (typed_literal (toString (42 : Int)) xsd_integer) ∧
    integer 9223372036854775808 = none :=
  ⟨c6_integer_range.1 42 (by decide) (by decide),
   c6_integer_range.2.1 9223372036854775808 (Or.inr (by decide))⟩

/-- Modelled from the spec: the table of human-readable strings for the
known Status codes of the missing native engine, indexed by code.  The spec
and the test suite pin code 0 to "Success", the bad-write code to "Error
writing to file", and the fallback for out-of-range codes to
"Unknown error"; the remaining entries model the other I/O, encoding and
invalid-statement error kinds the spec lists. -/
def statusMessages : List String :=
  ["Success", "Non-fatal failure", "Unknown error", "Invalid syntax",
   "Invalid argument", "Invalid iterator", "Not found", "Blank node ID clash",
   "Invalid CURIE", "Internal error", "Stack overflow", "Invalid data",
   "Unexpectedly empty input", "Error writing to file", "Error in system call",
   "Invalid URI"]

/-- Code of the bad-write status in the table. -/
def ERR_BAD_WRITE : Int := 13

/-- Modelled from the spec: strerror maps a status code to a human string,
with an explicit "Unknown error" fallback for out-of-range codes and a
range-error failure for negative codes. -/
def strerror (c : Int) : Except String String :=
  if c < 0 then .error "Status code out of range"
  else .ok (statusMessages.getD c.toNat "Unknown error")

/-- C7: strerror maps each known Status code to its human-readable string
(SUCCESS to "Success", the bad-write code to "Error writing to file"),
returns the "Unknown error" fallback for every out-of-range non-negative
code such as 99999, and fails with a range error for every negative code. -/
theorem c7_strerror :
    (∀ k : Nat, (h : k < statusMessages.length) →
      strerror k = .ok (statusMessages.get ⟨k, h⟩)) ∧
    strerror 0 = .ok "Success" ∧
    strerror ERR_BAD_WRITE = .ok "Error writing to file" ∧
    (∀ c : Int, 0 ≤ c → statusMessages.length ≤ c.toNat →
      strerror c = .ok "Unknown error") ∧
    strerror 99999 = .ok "Unknown error" ∧
    (∀ c : Int, c < 0 → strerror c = .error "Status code out of range") := by
  refine ⟨?_, rfl, rfl, ?_, rfl, ?_⟩
  · intro k h
    have hk : ¬((k : Int) < 0) := by omega
    simp [strerror, hk, List.getD_eq_getElem?_getD, List.getElem?_eq_getElem h]
  · intro c h1 h2
    have hc : ¬(c < 0) := by omega
    simp [strerror, hc, List.getD_eq_getElem?_getD, List.getElem?_eq_none h2]
  · intro c h
    simp [strerror, h]

/-- C7 witness: the known-code mapping at the bad-write code, the fallback
at a concrete out-of-range code, and the failure at -1. -/
theorem c7_witness :
    strerror 13 = .ok (statusMessages.get ⟨13, by decide⟩) ∧
    strerror 100000 = .ok "Unknown error" ∧
    strerror (-1) = .error "Status code out of range" :=
  ⟨c7_strerror.1 13 (by decide),
   c7_strerror.2.2.2.1 100000 (by decide) (by decide),
   c7_strerror.2.2.2.2.2 (-1) (by decide)⟩

/-- Modelled from the spec: the Env prefix/base resolution context owns an
optional base URI and a mapping from prefix name to namespace URI with
unique keys; the namespace is stored as its lexical URI text. -/
structure Env where
  base : Option String
  prefixes : List (String × String)
deriving DecidableEq

/-- Modelled from the spec: registers a namespace for a prefix name; the
last registration for a name wins. -/
def Env.setPrefixPair (e : Env) (name ns : String) : Env :=
  ⟨e.base, (name, ns) :: e.prefixes.filter fun pr => !(pr.1 == name)⟩

/-- Strips a textual prefix from a character list, returning the remaining
suffix when the whole prefix matches. -/
def stripPre : List Char → List Char → Option (List Char)
  | [], s => some s
  | _ :: _, [] => none
  | p :: ps, c :: cs => if p = c then stripPre ps cs else none

/-- Walks the registered prefixes in order and produces the first
prefix:suffix CURIE text whose namespace is a proper textual prefix of the
given URI text. -/
def qualifyList : List (String × String) → String → Option String
  | [], _ => none
  | (name, ns) :: rest, t =>
    match stripPre ns.data t.data with
    | some suffix =>
      if suffix.isEmpty then qualifyList rest t
      else some (name ++ ":" ++ String.mk suffix)
    | none => qualifyList rest t

/-- Modelled from the spec: Env.qualify returns the matching prefix:suffix
CURIE if some registered prefix is a proper textual prefix of the URI's
lexical value, else none. -/
def Env.qualify (e : Env) (u : Node) : Option String :=
  match u with
  | .uri t => qualifyList e.prefixes t
  | _ => none

/-- Splits a CURIE text at its first colon into prefix and suffix. -/
def splitColon : List Char → Option (List Char × List Char)
  | [] => none
  | c :: cs =>
    if c = ':' then some ([], cs)
    else (splitColon cs).map fun p => (c :: p.1, p.2)

/-- Modelled from the spec: Env.expand looks up the CURIE's prefix and
concatenates the registered namespace with its suffix to a URI node, or none
if the prefix is unregistered. -/
def Env.expand (e : Env) (c : Node) : Option Node :=
  match c with
  | .curie t =>
    match splitColon t.data with
    | none => none
    | some (pre, suf) =>
      match e.prefixes.find? (fun pr => pr.1 == String.mk pre) with
      | none => none
      | some pr => some (.uri (pr.2 ++ String.mk suf))
  | _ => none

theorem stripPre_append (a b : List Char) : stripPre a (a ++ b) = some b := by
  induction a with
  | nil => rfl
  | cons c cs ih => simp [stripPre, ih]

theorem splitColon_eg (suffix : List Char) :
    splitColon ('e' :: 'g' :: ':' :: suffix) = some (['e', 'g'], suffix) := by
  simp [splitColon]

theorem qualifyList_none (ps : List (String × String)) (t : String)
    (h : ∀ pr ∈ ps,
      stripPre pr.2.data t.data = none ∨ stripPre pr.2.data t.data = some []) :
    qualifyList ps t = none := by
  induction ps with
  | nil => rfl
  | cons pr rest ih =>
    rcases h pr (by simp) with hpr | hpr
    · simp only [qualifyList, hpr]
      exact ih (fun q hq => h q (by simp [hq]))
    · simp only [qualifyList, hpr, List.isEmpty_nil, if_true]
      exact ih (fun q hq => h q (by simp [hq]))

/-- C8: qualify returns none while no registered prefix is a proper textual
prefix of the URI; after registering "eg" for a base namespace, a URI formed
as base plus a nonempty name qualifies to the CURIE "eg:" plus name;
symmetrically, expand of such a CURIE returns none on an Env with no
registered prefixes and the URI base plus name after the registration. -/
theorem c8_env_qualify_expand :
    (∀ (e : Env) (t : String),
      (∀ pr ∈ e.prefixes,
        stripPre pr.2.data t.data = none ∨ stripPre pr.2.data t.data = some []) →
      e.qualify (uri t) = none) ∧
    (∀ (b : Option String) (t : String), (Env.mk b []).expand (curie t) = none) ∧
    (∀ (e : Env) (base name : String), name ≠ "" →
      (e.setPrefixPair "eg" base).qualify (uri (base ++ name)) =
          some ("eg:" ++ name) ∧
      (e.setPrefixPair "eg" base).expand (curie ("eg:" ++ name)) =
          some (uri (base ++ name))) := by
  refine ⟨?_, ?_, ?_⟩
  · intro e t h
    exact qualifyList_none e.prefixes t h
  · intro b t
    simp only [curie, Env.expand]
    cases h : splitColon t.data with
    | none => rfl
    | some pr =>
      obtain ⟨pre, suf⟩ := pr
      rfl
  · intro e base name hname
    constructor
    · show qualifyList _ _ = some _
      have hdata : (base ++ name).data = base.data ++ name.data := rfl
      have hne : ¬(name.data.isEmpty = true) := by
        cases hd : name.data with
        | nil => exact absurd (congrArg String.mk hd) hname
        | cons c cs => simp
      simp only [Env.setPrefixPair, qualifyList, hdata, stripPre_append]
      rw [if_neg hne]
      exact congrArg some (congrArg (fun s => "eg" ++ ":" ++ s) (strMk_data name))
    · have hdata : ("eg:" ++ name).data = 'e' :: 'g' :: ':' :: name.data := rfl
      simp only [curie, Env.expand, hdata, splitColon_eg, Env.setPrefixPair]
      simp only [List.find?_cons,
        (by decide : (("eg" : String) == String.mk ['e', 'g']) = true)]
      simp [strMk_data, uri]

/-- C8 witness: the qualify/expand behavior before and after registering the
"eg" prefix at a concrete base and name. -/
theorem c8_witness :
    (Env.mk (some "http://example.org/") []).qualify
        (uri "http://example.org/name") = none ∧
    (Env.mk (some "http://example.org/") []).expand (curie "eg:name") = none ∧
    ((Env.mk (some "http://example.org/") []).setPrefixPair "eg"
        "http://example.org/").qualify (uri ("http://example.org/" ++ "name")) =
      some ("eg:" ++ "name") ∧
    ((Env.mk (some "http://example.org/") []).setPrefixPair "eg"
        "http://example.org/").expand (curie ("eg:" ++ "name")) =
      some (uri ("http://example.org/" ++ "name")) :=
  ⟨c8_env_qualify_expand.1 _ _ (by simp),
   c8_env_qualify_expand.2.1 _ "eg:name",
   (c8_env_qualify_expand.2.2 _ "http://example.org/" "name" (by decide)).1,
   (c8_env_qualify_expand.2.2 _ "http://example.org/" "name" (by decide)).2⟩

/-- Well-formedness of a model: its statement sequence is strictly
increasing in the index key, so it carries each statement (up to cursor) at
most once, in index order. -/
abbrev Model.WF (m : Model) : Prop :=
  m.stmts.Pairwise fun a b => lexLtb (stKey a) (stKey b) = true

/-- Modelled from the spec: two models compare equal iff they hold the same
statement sequence, statements compared by their four node slots with the
cursor excluded. -/
def modelEq (m1 m2 : Model) : Bool :=
  m1.stmts.map Statement.fields == m2.stmts.map Statement.fields

/-- Modelled from the spec: Model.range returns the ordered matches of a
triple pattern with wildcards, as a snapshot list of statements. -/
def Model.range (m : Model) (s p o : Option Node) : List Statement :=
  m.stmts.filter fun st => st.matches s p o none

/-- Modelled from the spec: supplying a range to insert performs a bulk
insert of every snapshot element. -/
def Model.insertRange (m : Model) (l : List Statement) : Model :=
  l.foldl Model.insert m

/-- Modelled from the spec: supplying a range to erase removes every
snapshot element. -/
def Model.eraseRange (m : Model) (l : List Statement) : Model :=
  l.foldl Model.erase m

theorem mem_insertSorted {st y : Statement} :
    ∀ {l : List Statement}, y ∈ insertSorted st l → y = st ∨ y ∈ l := by
  intro l
  induction l with
  | nil =>
    intro h
    simp only [insertSorted, List.mem_singleton] at h
    exact Or.inl h
  | cons x xs ih =>
    intro h
    by_cases he : stKey st = stKey x
    · simp only [insertSorted, if_pos he] at h
      exact Or.inr h
    · by_cases hlt : lexLtb (stKey st) (stKey x) = true
      · simp only [insertSorted, if_neg he, if_pos hlt, List.mem_cons] at h
        rcases h with h | h
        · exact Or.inl h
        · exact Or.inr (by simpa using h)
      · simp only [insertSorted, if_neg he, if_neg hlt, List.mem_cons] at h
        rcases h with h | h
        · exact Or.inr (by simp [h])
        · rcases ih h with h' | h'
          · exact Or.inl h'
          · exact Or.inr (by simp [h'])

theorem pairwise_insertSorted (st : Statement) :
    ∀ (l : List Statement),
      l.Pairwise (fun a b => lexLtb (stKey a) (stKey b) = true) →
      (insertSorted st l).Pairwise (fun a b => lexLtb (stKey a) (stKey b) = true) := by
  intro l
  induction l with
  | nil => intro _; simp [insertSorted]
  | cons x xs ih =>
    intro h
    rw [List.pairwise_cons] at h
    obtain ⟨hx, hxs⟩ := h
    by_cases he : stKey st = stKey x
    · simpa [insertSorted, he, List.pairwise_cons] using ⟨hx, hxs⟩
    · by_cases hlt : lexLtb (stKey st) (stKey x) = true
      · simp only [insertSorted, if_neg he, if_pos hlt, List.pairwise_cons]
        refine ⟨?_, hx, hxs⟩
        intro y hy
        rw [List.mem_cons] at hy
        rcases hy with rfl | hy
        · exact hlt
        · exact lexLtb_trans hlt (hx y hy)
      · simp only [insertSorted, if_neg he, if_neg hlt, List.pairwise_cons]
        refine ⟨?_, ih hxs⟩
        intro y hy
        rcases mem_insertSorted hy with rfl | hy'
        · rcases lexLtb_connect (stKey y) (stKey x) with h' | h' | h'
          · exact absurd h' he
          · exact absurd h' hlt
          · exact h'
        · exact hx y hy'

theorem Model.insert_WF {m : Model} (st : Statement) (h : m.WF) :
    (m.insert st).WF :=
  pairwise_insertSorted st m.stmts h

theorem Model.erase_WF {m : Model} (st : Statement) (h : m.WF) :
    (m.erase st).WF :=
  h.filter _

theorem emptyModel_WF (flags : Nat) : (emptyModel flags).WF := List.Pairwise.nil

theorem fieldsKey_injective : Function.Injective fieldsKey :=
  fun _ _ h => fieldsKey_inj h

instance instIsAntisymmLexLtb :
    IsAntisymm (List Nat) (fun a b => lexLtb a b = true) :=
  ⟨fun _ _ h1 h2 => absurd (lexLtb_trans h1 h2) (by simp [lexLtb_irrefl])⟩

/-- C10: two well-formed models compare equal exactly when they contain the
same set of statements (statements identified by their four node slots),
independently of the insertion and erase history that produced them. -/
theorem c10_model_equality (m1 m2 : Model) (h1 : m1.WF) (h2 : m2.WF) :
    modelEq m1 m2 = true ↔
      (m1.stmts.map Statement.fields).Perm (m2.stmts.map Statement.fields) := by
  constructor
  · intro h
    have : m1.stmts.map Statement.fields = m2.stmts.map Statement.fields := by
      simpa [modelEq] using h
    rw [this]
  · intro hp
    have hkeys : ((m1.stmts.map Statement.fields).map fieldsKey).Perm
        ((m2.stmts.map Statement.fields).map fieldsKey) := hp.map fieldsKey
    have hs1 : List.Sorted (fun a b => lexLtb a b = true)
        ((m1.stmts.map Statement.fields).map fieldsKey) := by
      rw [List.map_map]
      exact List.pairwise_map.mpr h1
    have hs2 : List.Sorted (fun a b => lexLtb a b = true)
        ((m2.stmts.map Statement.fields).map fieldsKey) := by
      rw [List.map_map]
      exact List.pairwise_map.mpr h2
    have heq := List.eq_of_perm_of_sorted hkeys hs1 hs2
    have : m1.stmts.map Statement.fields = m2.stmts.map Statement.fields :=
      List.map_injective_iff.mpr fieldsKey_injective heq
    simp [modelEq, this]

/-- Statement of the C10 bulk-transfer scenario: subject s with the given
predicate and object names under http://example.org/. -/
def scenarioStmt (p o : String) : Statement :=
  ⟨uri "http://example.org/s", uri ("http://example.org/" ++ p),
    uri ("http://example.org/" ++ o), none, none⟩

/-- Four-statement source model of the C10 scenario. -/
def scenarioSource : Model :=
  ((((emptyModel INDEX_SPO).insert (scenarioStmt "p1" "o1")).insert
      (scenarioStmt "p1" "o2")).insert
    (scenarioStmt "p2" "o1")).insert
    (scenarioStmt "p2" "o2")

/-- Model built by bulk-inserting the range (s, p1, None) of the source. -/
def scenarioTarget : Model :=
  (emptyModel INDEX_SPO).insertRange
    (scenarioSource.range (some (uri "http://example.org/s"))
      (some (uri "http://example.org/p1")) none)

/-- The source model after erasing its range (s, p2, None). -/
def scenarioErased : Model :=
  scenarioSource.eraseRange
    (scenarioSource.range (some (uri "http://example.org/s"))
      (some (uri "http://example.org/p2")) none)

/-- C10 witness: after the bulk transfer and bulk erase of the scenario, the
two models compare equal, applying the equality law at the two concrete
well-formed models. -/
theorem c10_witness : modelEq scenarioErased scenarioTarget = true :=
  (c10_model_equality scenarioErased scenarioTarget (by decide) (by decide)).mpr
    (by decide)

/-- Modelled from the spec: the Status result codes returned by Reader
operations; SUCCESS for a completed operation, FAILURE for a non-fatal
failure such as driving an unbound reader, and ERR_BAD_TEXT standing for
the grammar-violation error kind of the missing engine. -/
inductive Status where
  | SUCCESS
  | FAILURE
  | ERR_BAD_TEXT
deriving DecidableEq

/-- Modelled from the spec: the Event variants a Reader emits to its Sink:
base changed, prefix defined (named prefixDecl here), statement produced
with presentation-hint flags, and anonymous-node scope ended. -/
inductive Event where
  | base (u : Node)
  | prefixDecl (name : String) (ns : Node)
  | statement (st : Statement) (flags : Nat)
  | endNode (n : Node)
deriving DecidableEq

/-- Whitespace test used by the token scanner. -/
def isWs (c : Char) : Bool := c = ' ' || c = '\n' || c = '\t' || c = '\r'

/-- Scanner splitting the document characters into whitespace-separated
tokens, accumulating the current token in reverse. -/
def tokenizeAux : List Char → List Char → List String
  | [], acc => if acc.isEmpty then [] else [String.mk acc.reverse]
  | c :: cs, acc =>
    if isWs c then
      if acc.isEmpty then tokenizeAux cs []
      else String.mk acc.reverse :: tokenizeAux cs []
    else tokenizeAux cs (c :: acc)

/-- Splits a document into whitespace-separated tokens. -/
def tokenize (s : String) : List String := tokenizeAux s.data []

/-- Extracts the URI text from an angle-bracketed token. -/
def angleUri (t : String) : Option String :=
  match t.data with
  | '<' :: rest =>
    if rest.getLast? = some '>' then some ⟨rest.dropLast⟩ else none
  | _ => none

/-- Extracts the prefix name from a prefixed-name declaration token ending
in a colon. -/
def pnameName (t : String) : Option String :=
  match t.data.getLast? with
  | some ':' => some ⟨t.data.dropLast⟩
  | _ => none

/-- Resolves a subject/predicate/object token under the current Env: an
angle-bracketed token is an absolute URI, anything else a CURIE expanded
through the prefix table. -/
def resolveTok (e : Env) (t : String) : Option Node :=
  match t.data with
  | '<' :: rest =>
    if rest.getLast? = some '>' then some (.uri ⟨rest.dropLast⟩) else none
  | _ => e.expand (.curie t)

/-- Modelled from the spec: the Reader's grammar-driving loop for the
Turtle-style directive and triple productions the spec's end-to-end property
exercises.  It walks the token stream under the Env, keeping the current
subject and predicate for predicate lists (semicolon) and object lists
(comma), and emits a prefix event for every prefix directive, a base event
for every base directive and a statement event as each triple production
completes; a grammar violation aborts the drive with an error status. -/
def readLoop : Nat → List String → Env → Option Node → Option Node →
    List Event × Status
  | 0, _, _, _, _ => ([], .ERR_BAD_TEXT)
  | Nat.succ fuel, toks, env, subj, pred =>
    match toks with
    | [] => if subj.isNone then ([], .SUCCESS) else ([], .ERR_BAD_TEXT)
    | tok :: rest =>
      if tok = "@prefix" then
        match rest with
        | pn :: u :: dot :: rest2 =>
          if dot = "." then
            match pnameName pn, angleUri u with
            | some nm, some ns =>
              let res := readLoop fuel rest2 (env.setPrefixPair nm ns) subj pred
              (Event.prefixDecl nm (.uri ns) :: res.1, res.2)
            | _, _ => ([], .ERR_BAD_TEXT)
          else ([], .ERR_BAD_TEXT)
        | _ => ([], .ERR_BAD_TEXT)
      else if tok = "@base" then
        match rest with
        | u :: dot :: rest2 =>
          if dot = "." then
            match angleUri u with
            | some b =>
              let res := readLoop fuel rest2 ⟨some b, env.prefixes⟩ subj pred
              (Event.base (.uri b) :: res.1, res.2)
            | none => ([], .ERR_BAD_TEXT)
          else ([], .ERR_BAD_TEXT)
        | _ => ([], .ERR_BAD_TEXT)
      else
        match subj, pred with
        | none, _ =>
          match rest with
          | pTok :: oTok :: sep :: rest2 =>
            match resolveTok env tok, resolveTok env pTok, resolveTok env oTok with
            | some sN, some pN, some oN =>
              if sep = "." then
                let res := readLoop fuel rest2 env none none
                (Event.statement ⟨sN, pN, oN, none, none⟩ 0 :: res.1, res.2)
              else if sep = ";" then
                let res := readLoop fuel rest2 env (some sN) none
                (Event.statement ⟨sN, pN, oN, none, none⟩ 0 :: res.1, res.2)
              else if sep = "," then
                let res := readLoop fuel rest2 env (some sN) (some pN)
                (Event.statement ⟨sN, pN, oN, none, none⟩ 0 :: res.1, res.2)
              else ([], .ERR_BAD_TEXT)
            | _, _, _ => ([], .ERR_BAD_TEXT)
          | _ => ([], .ERR_BAD_TEXT)
        | some sN, none =>
          match rest with
          | oTok :: sep :: rest2 =>
            match resolveTok env tok, resolveTok env oTok with
            | some pN, some oN =>
              if sep = "." then
                let res := readLoop fuel rest2 env none none
                (Event.statement ⟨sN, pN, oN, none, none⟩ 0 :: res.1, res.2)
              else if sep = ";" then
                let res := readLoop fuel rest2 env (some sN) none
                (Event.statement ⟨sN, pN, oN, none, none⟩ 0 :: res.1, res.2)
              else if sep = "," then
                let res := readLoop fuel rest2 env (some sN) (some pN)
                (Event.statement ⟨sN, pN, oN, none, none⟩ 0 :: res.1, res.2)
              else ([], .ERR_BAD_TEXT)
            | _, _ => ([], .ERR_BAD_TEXT)
          | _ => ([], .ERR_BAD_TEXT)
        | some sN, some pN =>
          match rest with
          | sep :: rest2 =>
            match resolveTok env tok with
            | some oN =>
              if sep = "." then
                let res := readLoop fuel rest2 env none none
                (Event.statement ⟨sN, pN, oN, none, none⟩ 0 :: res.1, res.2)
              else if sep = ";" then
                let res := readLoop fuel rest2 env (some sN) none
                (Event.statement ⟨sN, pN, oN, none, none⟩ 0 :: res.1, res.2)
              else if sep = "," then
                let res := readLoop fuel rest2 env (some sN) (some pN)
                (Event.statement ⟨sN, pN, oN, none, none⟩ 0 :: res.1, res.2)
              else ([], .ERR_BAD_TEXT)
            | none => ([], .ERR_BAD_TEXT)
          | _ => ([], .ERR_BAD_TEXT)

/-- Phases of the Reader state machine. -/
inductive ReaderPhase where
  | unstarted
  | started
  | finished
deriving DecidableEq

/-- Modelled from the spec: the Reader state machine, holding the bound Env,
its phase, the bound tokenized Source while one is bound, and the log of all
events delivered to the bound Sink so far. -/
structure Reader where
  env : Env
  phase : ReaderPhase
  source : Option (List String)
  log : List Event

/-- A freshly constructed reader bound to an Env and a Sink with an empty
delivery log. -/
def Reader.new (env : Env) : Reader := ⟨env, .unstarted, none, []⟩

/-- Modelled from the spec: Reader.start binds an input source and moves the
reader to the started phase; it delivers nothing to the Sink. -/
def Reader.start (r : Reader) (source : String) : Reader × Status :=
  ({ r with phase := .started, source := some (tokenize source) }, .SUCCESS)

/-- Modelled from the spec: Reader.readDoc drives the grammar over the whole
bound source, delivering events to the Sink as productions complete, and
moves to the finished phase. -/
def Reader.readDoc (r : Reader) : Reader × Status :=
  match r.source with
  | none => (r, .FAILURE)
  | some toks =>
    let res := readLoop (toks.length + 1) toks r.env none none
    ({ r with phase := .finished, log := r.log ++ res.1 }, res.2)

/-- Modelled from the spec: Reader.finish releases the bound source; it
delivers nothing to the Sink. -/
def Reader.finish (r : Reader) : Reader × Status :=
  ({ r with source := none }, .SUCCESS)

/-- The Turtle document of the end-to-end reading property. -/
def turtleDoc : String :=
  "@prefix eg: <http://example.org/> .\n@base <http://example.org/base> .\neg:s eg:p1 eg:o1 ;\neg:p2 eg:o2 .\n"

/-- The exact event sequence the end-to-end property expects for
turtleDoc. -/
def turtleDocEvents : List Event :=
  [Event.prefixDecl "eg" (uri "http://example.org/"),
   Event.base (uri "http://example.org/base"),
   Event.statement ⟨uri "http://example.org/s", uri "http://example.org/p1",
     uri "http://example.org/o1", none, none⟩ 0,
   Event.statement ⟨uri "http://example.org/s", uri "http://example.org/p2",
     uri "http://example.org/o2", none, none⟩ 0]

/-- C2: driving a Turtle reader over the prefix/base/predicate-list document
emits to the bound Sink exactly the event sequence Prefix, Base and the two
expanded statements, in that order, and start, readDoc and finish each
return a success Status. -/
theorem c2_turtle_reader_events :
    ((Reader.new ⟨none, []⟩).start turtleDoc).2 = Status.SUCCESS ∧
    (((Reader.new ⟨none, []⟩).start turtleDoc).1.readDoc).2 = Status.SUCCESS ∧
    ((((Reader.new ⟨none, []⟩).start turtleDoc).1.readDoc).1.finish).2 =
      Status.SUCCESS ∧
    (((Reader.new ⟨none, []⟩).start turtleDoc).1.readDoc).1.log =
      turtleDocEvents ∧
    ((((Reader.new ⟨none, []⟩).start turtleDoc).1.readDoc).1.finish).1.log =
      turtleDocEvents := by
  refine ⟨rfl, ?_, ?_, ?_, ?_⟩ <;> decide

/-- C9: a Reader.start that returns a success status delivers no events to
the bound Sink: the delivery log after start is the log before it (and
empty for a fresh reader), and finishing also delivers nothing, so all
events of a document are delivered only during readDoc. -/
theorem c9_start_emits_no_events (r : Reader) (src : String) (e : Env) :
    (r.start src).2 = Status.SUCCESS ∧
    (r.start src).1.log = r.log ∧
    ((Reader.new e).start src).1.log = [] ∧
    (r.finish).1.log = r.log :=
  ⟨rfl, rfl, rfl, rfl⟩

end Serd
